import Mathlib

deriving instance DecidableEq for Except

/-!
Verification of the media-service chunked file-upload core of the
work-schedule-app Go backend: the local blob store
(`internal/infrastructure/storage/local.go`), the media use case
(`internal/usecase/usecase.go`), the Postgres media-file repository, the
gateway relay's chunking loop, and the streaming upload session protocol.

Bytes are modelled as `List Nat`; the storage medium as an association
list from root-relative file names to contents (the code only ever writes
directly under the configured storage root, so the medium is flat).
-/

namespace MediaVerif

/-- Raw file contents: a sequence of byte values. -/
abbrev Bytes := List Nat

/-- A Go `time.Time` value as the media code observes it: `stamp` is the
output of `Format "20060102150405"` (used in generated blob names), `tick`
an abstract instant used only for equality of stored timestamps. -/
structure GoTime where
  stamp : String
  tick : Int
deriving DecidableEq

/-- `entity.MediaFile` (media-service domain entity). -/
structure MediaFile where
  id : Int
  fileName : String
  fileURL : String
  uploadedBy : Int
  uploadedAt : GoTime
  fileType : String
  fileSize : Int
deriving DecidableEq

/-- `entity.NewMediaFile`: builds the record with `UploadedAt = time.Now()`
and zero `ID` (assigned later by the repository). -/
def NewMediaFile (fileName fileURL fileType : String) (uploadedBy fileSize : Int)
    (now : GoTime) : MediaFile :=
  { id := 0, fileName := fileName, fileURL := fileURL, uploadedBy := uploadedBy,
    uploadedAt := now, fileType := fileType, fileSize := fileSize }

def FileTypeImage : String := "image"
def FileTypeDocument : String := "document"
def FileTypeResume : String := "resume"

/-- `entity.ValidFileTypes`. -/
def ValidFileTypes : List String := [FileTypeImage, FileTypeDocument, FileTypeResume]

/-- `entity.IsValidFileType`: linear scan for an equal element. -/
def IsValidFileType (fileType : String) : Bool :=
  ValidFileTypes.any (fun t => t == fileType)

/-- Error values observable from the media pipeline (Go `error` values). -/
inductive Err where
  /-- `usecase.ErrFileNotFound` -/
  | fileNotFound
  /-- `usecase.ErrInvalidFileType` -/
  | invalidFileType
  /-- `usecase.ErrUploadFailed` -/
  | uploadFailed
  /-- `os.Create` failure inside `LocalStorage.Save` -/
  | storageCreateFailed
  /-- `os.Open`/`io.ReadAll` failure inside `LocalStorage.Get` -/
  | storageOpenFailed
  /-- `os.Remove` failure (other than not-exist) inside `LocalStorage.Delete` -/
  | storageRemoveFailed
  /-- an abstract persistence-layer (database) error -/
  | repoFailure (code : Nat)
  /-- a protocol violation detected by the streaming upload session -/
  | chunkBeforeMetadata
  | duplicateMetadata
  | payloadTooLarge
  | missingMetadata
deriving DecidableEq

/-! ### Go `path/filepath` helpers (unix rules: the separator is '/') -/

/-- `filepath.Ext`: walk backwards from the end; stop at a separator;
on a dot, return the suffix from that dot. -/
def goExtAux : List Char → List Char → Option (List Char)
  | [], _ => none
  | c :: rest, acc =>
    if c = '/' then none
    else if c = '.' then some (c :: acc)
    else goExtAux rest (c :: acc)

/-- `filepath.Ext fileName`. -/
def goExt (path : String) : String :=
  match goExtAux path.data.reverse [] with
  | none => ""
  | some l => ⟨l⟩

/-- Strip trailing '/' characters (first phase of `filepath.Base`). -/
def dropTrailingSep (cs : List Char) : List Char :=
  (cs.reverse.dropWhile (fun c => c == '/')).reverse

/-- The suffix after the last '/' (second phase of `filepath.Base`). -/
def lastSegment (cs : List Char) : List Char :=
  (cs.reverse.takeWhile (fun c => c != '/')).reverse

/-- `filepath.Base` (unix): "." on empty input, strip trailing separators,
"/" if nothing remains, else the final path element. -/
def goBase (path : String) : String :=
  if path = "" then "."
  else
    let cs := dropTrailingSep path.data
    if cs = [] then "/" else ⟨lastSegment cs⟩

/-! ### The storage medium

The code joins every incoming name onto the fixed storage root
(`filepath.Join(s.basePath, fileName)`) and never creates a
subdirectory, so the filesystem under the root is modelled as a flat
association list from file names to blob contents.  `os.Create` on the
joined path fails exactly when that path denotes a directory rather than
a creatable file: the empty name, "." and ".." resolve to the root
directory or its parent, and a name containing '/' points into a
subdirectory that never exists under the root. -/

/-- The storage root's contents: file name ↦ blob bytes. -/
abbrev Medium := List (String × Bytes)

def findBlob : Medium → String → Option Bytes
  | [], _ => none
  | (k, v) :: rest, n => if k = n then some v else findBlob rest n

/-- Write (create-or-truncate) a blob, as `os.Create` + `Write` do. -/
def putBlob : Medium → String → Bytes → Medium
  | [], k, v => [(k, v)]
  | (k', v') :: rest, k, v =>
    if k' = k then (k, v) :: rest else (k', v') :: putBlob rest k v

/-- Remove a blob, as `os.Remove` does. -/
def rmBlob : Medium → String → Medium
  | [], _ => []
  | (k', v') :: rest, k => if k' = k then rest else (k', v') :: rmBlob rest k

/-- Names on which `os.Create(filepath.Join(basePath, fileName))` fails
because the joined path is a directory (or lies inside a nonexistent
subdirectory of the flat root). -/
def savePathBlocked (fileName : String) : Bool :=
  decide (fileName = "" ∨ fileName = "." ∨ fileName = ".." ∨ '/' ∈ fileName.data)

/-- `storage.LocalStorage`: configured root path and public base URL. -/
structure LocalStorage where
  basePath : String
  baseURL : String
deriving DecidableEq

namespace LocalStorage

/-- `LocalStorage.Save`: create the file under the root, write `data`,
return the URL `baseURL + "/" + fileName`. -/
def Save (s : LocalStorage) (m : Medium) (fileName : String) (data : Bytes) :
    Except Err String × Medium :=
  if savePathBlocked fileName then (.error .storageCreateFailed, m)
  else (.ok (s.baseURL ++ "/" ++ fileName), putBlob m fileName data)

/-- `LocalStorage.Delete`: extract the file name with `filepath.Base`,
remove it; `os.IsNotExist` is treated as success. -/
def Delete (s : LocalStorage) (m : Medium) (fileURL : String) :
    Except Err Unit × Medium :=
  let fileName := goBase fileURL
  match findBlob m fileName with
  | none => (.ok (), m)
  | some _ => (.ok (), rmBlob m fileName)

/-- `LocalStorage.Get`: extract the file name with `filepath.Base`, open
and read it back; absence is a read error. -/
def Get (s : LocalStorage) (m : Medium) (fileURL : String) : Except Err Bytes :=
  let fileName := goBase fileURL
  match findBlob m fileName with
  | none => .error .storageOpenFailed
  | some d => .ok d

end LocalStorage

/-! ### The use case layer (`internal/usecase/usecase.go`)

`MediaUseCase` is written against the two domain interfaces
(`repository.FileStorage`, `repository.MediaFileRepository`); both are
modelled as records of state-passing functions over abstract state types,
so the use-case theorems quantify over every implementation. -/

/-- `repository.FileStorage` over an abstract medium state `σ`. -/
structure FileStorage (σ : Type) where
  save : σ → String → Bytes → Except Err String × σ
  delete : σ → String → Except Err Unit × σ
  get : σ → String → Except Err Bytes

/-- `repository.MediaFileRepository` over an abstract database state `ρ`.
`create` returns the stored record with its assigned `ID` (the Go code
mutates `file.ID` through `Scan`). -/
structure MediaFileRepository (ρ : Type) where
  create : ρ → MediaFile → Except Err MediaFile × ρ
  getByID : ρ → Int → Except Err MediaFile
  delete : ρ → Int → Except Err Unit × ρ

/-- `usecase.MediaUseCase`. -/
structure MediaUseCase (σ ρ : Type) where
  storage : FileStorage σ
  fileRepo : MediaFileRepository ρ

/-- The record `MediaUseCase.UploadFile` hands to `fileRepo.Create`:
built by `entity.NewMediaFile`, then the (vacuous) `if ext != "" {
file.FileName = fileName }` adjustment. -/
def uploadRecord (now : GoTime) (fileName fileURL fileType : String)
    (uploadedBy : Int) (data : Bytes) : MediaFile :=
  let file := NewMediaFile fileName fileURL fileType uploadedBy (data.length : Int) now
  if goExt fileName ≠ "" then { file with fileName := fileName } else file

namespace MediaUseCase

/-- `MediaUseCase.UploadFile`: validate the type, save the blob under the
timestamp-prefixed name, persist the record, compensating-delete the blob
(result discarded) if persistence fails. -/
def UploadFile (uc : MediaUseCase σ ρ) (now : GoTime)
    (fileName fileType : String) (uploadedBy : Int) (data : Bytes)
    (s : σ) (r : ρ) : Except Err MediaFile × σ × ρ :=
  if IsValidFileType fileType then
    let uniqueName := now.stamp ++ "_" ++ fileName
    match uc.storage.save s uniqueName data with
    | (.error _, s1) => (.error .uploadFailed, s1, r)
    | (.ok fileURL, s1) =>
      match uc.fileRepo.create r (uploadRecord now fileName fileURL fileType uploadedBy data) with
      | (.error e, r1) => (.error e, (uc.storage.delete s1 fileURL).2, r1)
      | (.ok file, r1) => (.ok file, s1, r1)
  else (.error .invalidFileType, s, r)

/-- `MediaUseCase.GetFile`: repository lookup, any failure reported as
`ErrFileNotFound`. -/
def GetFile (uc : MediaUseCase σ ρ) (r : ρ) (id : Int) : Except Err MediaFile :=
  match uc.fileRepo.getByID r id with
  | .error _ => .error .fileNotFound
  | .ok file => .ok file

/-- `MediaUseCase.DeleteFile`: look up the record, delete the blob, and
only on blob-delete success delete the record. -/
def DeleteFile (uc : MediaUseCase σ ρ) (s : σ) (r : ρ) (id : Int) :
    Except Err Unit × σ × ρ :=
  match uc.fileRepo.getByID r id with
  | .error _ => (.error .fileNotFound, s, r)
  | .ok file =>
    match uc.storage.delete s file.fileURL with
    | (.error e, s1) => (.error e, s1, r)
    | (.ok _, s1) =>
      match uc.fileRepo.delete r id with
      | (res, r1) => (res, s1, r1)

end MediaUseCase

/-! ### The Postgres media-file repository
(`internal/infrastructure/repository` + the `media_files` DDL)

The `media_files` table has columns `id, file_name, file_url,
uploaded_by, uploaded_at, file_type` — there is no `file_size` column,
and neither `Create`'s INSERT nor `GetByID`'s SELECT mentions one. -/

/-- One row of `media_files`. -/
structure PgRow where
  id : Int
  file_name : String
  file_url : String
  uploaded_by : Int
  uploaded_at : GoTime
  file_type : String
deriving DecidableEq

/-- The `media_files` table plus the SERIAL id sequence. -/
structure PgState where
  rows : List PgRow
  nextId : Int
deriving DecidableEq

namespace PostgresMediaFileRepository

/-- `Create`: INSERT `(file_name, file_url, uploaded_by, uploaded_at,
file_type)` RETURNING id, scanned back into `file.ID`.  `file_size` is
not inserted. -/
def Create (st : PgState) (file : MediaFile) : Except Err MediaFile × PgState :=
  (.ok { file with id := st.nextId },
   { rows := st.rows ++ [⟨st.nextId, file.fileName, file.fileURL, file.uploadedBy,
                          file.uploadedAt, file.fileType⟩],
     nextId := st.nextId + 1 })

/-- `GetByID`: SELECT the six columns into a fresh `entity.MediaFile`;
`FileSize` is never scanned and keeps its Go zero value. -/
def GetByID (st : PgState) (id : Int) : Except Err MediaFile :=
  match st.rows.find? (fun row => row.id == id) with
  | none => .error (.repoFailure 0)
  | some row =>
    .ok { id := row.id, fileName := row.file_name, fileURL := row.file_url,
          uploadedBy := row.uploaded_by, uploadedAt := row.uploaded_at,
          fileType := row.file_type, fileSize := 0 }

/-- `Delete`: DELETE FROM media_files WHERE id = $1. -/
def Delete (st : PgState) (id : Int) : Except Err Unit × PgState :=
  (.ok (), { st with rows := st.rows.filter (fun row => row.id != id) })

end PostgresMediaFileRepository

/-- The concrete `FileStorage` implementation backed by `LocalStorage`. -/
def localFS (cfg : LocalStorage) : FileStorage Medium where
  save := cfg.Save
  delete := cfg.Delete
  get := cfg.Get

/-- The concrete `MediaFileRepository` implementation backed by Postgres. -/
def pgRepo : MediaFileRepository PgState where
  create := PostgresMediaFileRepository.Create
  getByID := PostgresMediaFileRepository.GetByID
  delete := PostgresMediaFileRepository.Delete

/-- The use case as wired in `cmd/main.go`: local storage + Postgres repo. -/
def mkUseCase (cfg : LocalStorage) : MediaUseCase Medium PgState :=
  ⟨localFS cfg, pgRepo⟩

/-! ### The streaming upload protocol -/

/-- `pb.FileMetadata`: the metadata frame payload. -/
structure FileMetadata where
  fileName : String
  fileType : String
  uploadedBy : Int
deriving DecidableEq

/-- One `pb.UploadFileRequest`: either the metadata frame or a chunk frame. -/
inductive Frame where
  | metadata (m : FileMetadata)
  | chunk (bytes : Bytes)
deriving DecidableEq

/-- `handler.MaxFileSize` = 10 << 20 (10 MiB). -/
def MaxFileSize : Nat := 10 <<< 20

/-- `handler.ChunkSize` = 64 KiB. -/
def ChunkSize : Nat := 64 * 1024

/-- The chunk-sending loop of the gateway's `MediaHandler.UploadFile`:
each successive `file.Read` returning `n` bytes produces one chunk frame
carrying `buffer[:n]`; `io.EOF` breaks the loop.  The reader is modelled
by the list of byte slices its successive reads return. -/
def sendChunks : List Bytes → List Frame
  | [] => []
  | r :: rs => Frame.chunk r :: sendChunks rs

/-- The bytes transported by a frame sequence: the concatenation, in send
order, of the chunk frames' payloads. -/
def sentPayload : List Frame → Bytes
  | [] => []
  | Frame.chunk b :: fs => b ++ sentPayload fs
  | Frame.metadata _ :: fs => sentPayload fs

/-- Total byte count carried by the chunk frames of a sequence. -/
def totalChunkBytes : List Frame → Nat
  | [] => 0
  | Frame.chunk b :: fs => b.length + totalChunkBytes fs
  | Frame.metadata _ :: fs => totalChunkBytes fs

/-- Modelled from the spec: the per-session state of the receiving side
of the Upload Session Protocol (spec §3 "Upload Session": an
expected-metadata-received flag-cum-captured metadata, and the
accumulated byte buffer).  The media service's server-side stream
handler is absent from `src/` — `cmd/main.go` leaves registration a
TODO — so the receiver is modelled from spec §4.2. -/
structure SessionState where
  meta : Option FileMetadata
  buffer : Bytes
deriving DecidableEq

/-- Modelled from the spec: how the receiving side consumes one frame
(spec §4.2): the metadata frame must come first and exactly once; a
chunk frame before metadata, a second metadata frame, or cumulative
chunk bytes exceeding the configured 10 MiB ceiling fail the session. -/
def recvFrame (st : SessionState) (f : Frame) : Except Err SessionState :=
  match f with
  | Frame.metadata m =>
    match st.meta with
    | some _ => .error .duplicateMetadata
    | none => .ok { st with meta := some m }
  | Frame.chunk b =>
    match st.meta with
    | none => .error .chunkBeforeMetadata
    | some _ =>
      if st.buffer.length + b.length > MaxFileSize then .error .payloadTooLarge
      else .ok { st with buffer := st.buffer ++ b }

/-- Modelled from the spec: fold the received frames through
`recvFrame`, aborting on the first violation. -/
def runFrames (st : SessionState) : List Frame → Except Err SessionState
  | [] => .ok st
  | f :: fs =>
    match recvFrame st f with
    | .error e => .error e
    | .ok st1 => runFrames st1 fs

/-- Modelled from the spec: one whole session on the receiving side —
start empty, consume all frames, and at end-of-stream produce the
captured metadata plus the reassembled buffer (a session that never saw
a metadata frame is a violation). -/
def runSession (frames : List Frame) : Except Err (FileMetadata × Bytes) :=
  match runFrames ⟨none, []⟩ frames with
  | .error e => .error e
  | .ok st =>
    match st.meta with
    | none => .error .missingMetadata
    | some m => .ok (m, st.buffer)

/-- Modelled from the spec: the receiving side end-to-end — on
successful reassembly hand buffer and metadata to the Media Record
Lifecycle (`MediaUseCase.UploadFile`, which is code under `src/`); on a
session failure create nothing and leave both storage and database
untouched. -/
def serveUpload (cfg : LocalStorage) (now : GoTime) (frames : List Frame)
    (m : Medium) (pg : PgState) : Except Err MediaFile × Medium × PgState :=
  match runSession frames with
  | .error e => (.error e, m, pg)
  | .ok (meta, data) =>
    MediaUseCase.UploadFile (mkUseCase cfg) now meta.fileName meta.fileType
      meta.uploadedBy data m pg

/-- Number of metadata frames in a sequence. -/
def countMetadata : List Frame → Nat
  | [] => 0
  | Frame.metadata _ :: fs => 1 + countMetadata fs
  | Frame.chunk _ :: fs => countMetadata fs

/-! ### Concrete demonstration values (used by witnesses and
counterexamples) -/

/-- A concrete storage configuration. -/
def demoCfg : LocalStorage := ⟨"./uploads", "/files"⟩

/-- A concrete upload instant (2025-01-01 12:00:00). -/
def demoTime : GoTime := ⟨"20250101120000", 0⟩

/-- The E2E scenario-A upload: 3-byte `a.txt`, type `document`,
uploader 42, on an empty storage root and empty `media_files` table. -/
def demoUpload : Except Err MediaFile × Medium × PgState :=
  MediaUseCase.UploadFile (mkUseCase demoCfg) demoTime "a.txt" "document" 42
    [97, 98, 99] [] ⟨[], 1⟩

/-- The record the scenario-A upload returns. -/
def demoFile : MediaFile :=
  ⟨1, "a.txt", "/files/20250101120000_a.txt", 42, demoTime, "document", 3⟩

/-- The storage medium after the scenario-A upload. -/
def demoMedium1 : Medium := [("20250101120000_a.txt", [97, 98, 99])]

/-- The `media_files` table after the scenario-A upload. -/
def demoPg1 : PgState :=
  ⟨[⟨1, "a.txt", "/files/20250101120000_a.txt", 42, demoTime, "document"⟩], 2⟩

/-- The record `GetFile` returns for the scenario-A upload: identical to
`demoFile` except that `fileSize` is 0, because `media_files` has no
`file_size` column. -/
def demoGot : MediaFile :=
  ⟨1, "a.txt", "/files/20250101120000_a.txt", 42, demoTime, "document", 0⟩

/-- A repository whose `Create` always fails: drives the use case down
its compensating-delete path. -/
def demoFailRepo : MediaFileRepository Unit where
  create := fun r _ => (.error (.repoFailure 7), r)
  getByID := fun _ _ => .error (.repoFailure 0)
  delete := fun r _ => (.ok (), r)

/-- A use case wired with local storage and the always-failing repo. -/
def demoUC2 : MediaUseCase Medium Unit := ⟨localFS demoCfg, demoFailRepo⟩

/-- A blob store whose `Delete` always fails (e.g. permission denied):
drives `DeleteFile` down its fail-closed path. -/
def demoFailDeleteFS : FileStorage Unit where
  save := fun s n _ => (.ok n, s)
  delete := fun s _ => (.error .storageRemoveFailed, s)
  get := fun _ _ => .error .storageOpenFailed

/-- A use case wired with the failing-delete store and the Postgres repo. -/
def demoUC7 : MediaUseCase Unit PgState := ⟨demoFailDeleteFS, pgRepo⟩

/-- A one-row `media_files` table holding `demoFile`'s row. -/
def demoPgOne : PgState :=
  ⟨[⟨1, "a.txt", "/files/20250101120000_a.txt", 42, demoTime, "document"⟩], 2⟩

/-! ## Helper lemmas -/

theorem takeWhile_append_all {α : Type} (p : α → Bool) (l1 : List α) (a : α)
    (l2 : List α) (h1 : ∀ c ∈ l1, p c = true) (h2 : p a = false) :
    (l1 ++ a :: l2).takeWhile p = l1 := by
  induction l1 with
  | nil => simp [List.takeWhile, h2]
  | cons x xs ih =>
    have hx : p x = true := h1 x (by simp)
    have ih1 := ih (fun c hc => h1 c (by simp [hc]))
    simp [List.takeWhile_cons, hx, ih1]

theorem dropWhile_cons_false {α : Type} (p : α → Bool) (a : α) (l : List α)
    (h : p a = false) : (a :: l).dropWhile p = a :: l := by
  simp [List.dropWhile, h]

/-- `filepath.Base` recovers a separator-free, nonempty name appended
after a '/'. -/
theorem goBase_append (u name : String) (h1 : name ≠ "") (h2 : '/' ∉ name.data) :
    goBase (u ++ "/" ++ name) = name := by
  have hdata : (u ++ "/" ++ name).data = u.data ++ '/' :: name.data := by
    simp [String.data_append]
  have hne : name.data ≠ [] := fun h => h1 (by cases name; simp_all)
  obtain ⟨a, t, hat⟩ := List.exists_cons_of_ne_nil (l := name.data.reverse)
    (by simpa using hne)
  have hmem : ∀ c ∈ name.data.reverse, c ∈ name.data := fun c hc => by
    simpa using hc
  have ha : a ≠ '/' := fun h => h2 (by rw [← h]; exact hmem a (by simp [hat]))
  have hpathne : (u ++ "/" ++ name) ≠ "" := by
    intro h
    have : (u ++ "/" ++ name).data = [] := by rw [h]
    rw [hdata] at this
    simp at this
  rw [goBase, if_neg hpathne]
  have hrev : (u.data ++ '/' :: name.data).reverse
      = name.data.reverse ++ '/' :: u.data.reverse := by
    simp
  have hdrop : dropTrailingSep (u ++ "/" ++ name).data = (u ++ "/" ++ name).data := by
    rw [dropTrailingSep, hdata, hrev, hat, List.cons_append]
    rw [dropWhile_cons_false _ _ _ (by simp [ha])]
    rw [← List.cons_append, ← hat]
    simp
  rw [hdrop, hdata]
  rw [if_neg (by simp)]
  have hall : ∀ c ∈ name.data.reverse, (fun c => c != '/') c = true := by
    intro c hc
    have hcm : c ∈ name.data := hmem c hc
    have : c ≠ '/' := fun h => h2 (h ▸ hcm)
    simp [this]
  have hseg : lastSegment (u.data ++ '/' :: name.data) = name.data := by
    rw [lastSegment, hrev, takeWhile_append_all _ _ _ _ hall (by simp)]
    simp
  rw [hseg]

theorem findBlob_putBlob_self (m : Medium) (k : String) (v : Bytes) :
    findBlob (putBlob m k v) k = some v := by
  induction m with
  | nil => simp [putBlob, findBlob]
  | cons kv rest ih =>
    obtain ⟨k', v'⟩ := kv
    by_cases h : k' = k
    · simp [putBlob, h, findBlob]
    · simp [putBlob, h, findBlob, ih]

theorem find?_append_of_all_false {α : Type} (p : α → Bool) (l1 l2 : List α)
    (h : ∀ x ∈ l1, p x = false) : (l1 ++ l2).find? p = l2.find? p := by
  induction l1 with
  | nil => simp
  | cons x xs ih =>
    have hx : p x = false := h x (by simp)
    simp only [List.cons_append, List.find?, hx]
    exact ih (fun c hc => h c (by simp [hc]))

/-- The record handed to the repository, with its `if ext` branch
collapsed (both branches build the same record). -/
theorem uploadRecord_eq (now : GoTime) (fileName fileURL fileType : String)
    (uploadedBy : Int) (data : Bytes) :
    uploadRecord now fileName fileURL fileType uploadedBy data
      = ⟨0, fileName, fileURL, uploadedBy, now, fileType, (data.length : Int)⟩ := by
  rw [uploadRecord, NewMediaFile]
  split <;> rfl

/-! ## Claim theorems -/

/-- C6: every call to `MediaUseCase.UploadFile` with a `fileType` outside
{image, document, resume} fails with `ErrInvalidFileType` and leaves both
the storage state and the repository state untouched (no `Save`, no
`Create`), for every implementation of the two interfaces. -/
theorem uploadFile_invalid_type_no_side_effects {σ ρ : Type}
    (uc : MediaUseCase σ ρ) (now : GoTime) (fileName fileType : String)
    (uploadedBy : Int) (data : Bytes) (s : σ) (r : ρ)
    (h : IsValidFileType fileType = false) :
    uc.UploadFile now fileName fileType uploadedBy data s r
      = (.error .invalidFileType, s, r) := by
  rw [MediaUseCase.UploadFile, if_neg (by simp [h])]

theorem uploadFile_invalid_type_no_side_effects_witness :
    IsValidFileType "video" = false ∧
    (mkUseCase demoCfg).UploadFile demoTime "movie.mp4" "video" 42 [1, 2, 3] [] ⟨[], 1⟩
      = (.error .invalidFileType, ([] : Medium), (⟨[], 1⟩ : PgState)) :=
  ⟨by decide,
   uploadFile_invalid_type_no_side_effects (mkUseCase demoCfg) demoTime
     "movie.mp4" "video" 42 [1, 2, 3] [] ⟨[], 1⟩ (by decide)⟩

/-- C2: whenever the blob-store `Save` inside `UploadFile` succeeds and
the subsequent repository `Create` fails, `UploadFile` invokes the blob
store's `Delete` on the just-written locator with its result discarded
(the final state is `delete`'s state whatever its verdict), and returns
the persistence error — not a success, so no `MediaFile`.  Holds for
every implementation of the two interfaces. -/
theorem uploadFile_create_failure_compensates {σ ρ : Type}
    (uc : MediaUseCase σ ρ) (now : GoTime) (fileName fileType : String)
    (uploadedBy : Int) (data : Bytes) (s : σ) (r : ρ)
    (fileURL : String) (s1 : σ) (e : Err) (r1 : ρ)
    (hvalid : IsValidFileType fileType = true)
    (hsave : uc.storage.save s (now.stamp ++ "_" ++ fileName) data = (.ok fileURL, s1))
    (hcreate : uc.fileRepo.create r
        (uploadRecord now fileName fileURL fileType uploadedBy data) = (.error e, r1)) :
    uc.UploadFile now fileName fileType uploadedBy data s r
      = (.error e, (uc.storage.delete s1 fileURL).2, r1) := by
  rw [MediaUseCase.UploadFile, if_pos (by simp [hvalid])]
  simp only [hsave, hcreate]

theorem uploadFile_create_failure_compensates_witness :
    IsValidFileType "document" = true ∧
    demoUC2.storage.save [] (demoTime.stamp ++ "_" ++ "a.txt") [1, 2, 3]
      = (.ok "/files/20250101120000_a.txt", [("20250101120000_a.txt", [1, 2, 3])]) ∧
    demoUC2.fileRepo.create ()
        (uploadRecord demoTime "a.txt" "/files/20250101120000_a.txt" "document" 42 [1, 2, 3])
      = (.error (.repoFailure 7), ()) ∧
    demoUC2.UploadFile demoTime "a.txt" "document" 42 [1, 2, 3] [] ()
      = (.error (.repoFailure 7),
         (demoUC2.storage.delete [("20250101120000_a.txt", [1, 2, 3])]
           "/files/20250101120000_a.txt").2, ()) := by
  refine ⟨by decide, by decide, by decide, ?_⟩
  exact uploadFile_create_failure_compensates demoUC2 demoTime "a.txt" "document"
    42 [1, 2, 3] [] () "/files/20250101120000_a.txt"
    [("20250101120000_a.txt", [1, 2, 3])] (.repoFailure 7) ()
    (by decide) (by decide) (by decide)

/-- C7: if `DeleteFile` finds the record but the blob store's `Delete`
of its locator fails, the error is returned and the repository state is
untouched (`fileRepo.Delete` is not invoked), for every implementation
of the two interfaces. -/
theorem deleteFile_fail_closed {σ ρ : Type}
    (uc : MediaUseCase σ ρ) (s : σ) (r : ρ) (id : Int)
    (file : MediaFile) (e : Err) (s1 : σ)
    (hget : uc.fileRepo.getByID r id = .ok file)
    (hdel : uc.storage.delete s file.fileURL = (.error e, s1)) :
    uc.DeleteFile s r id = (.error e, s1, r) := by
  simp only [MediaUseCase.DeleteFile, hget, hdel]

theorem deleteFile_fail_closed_witness :
    demoUC7.fileRepo.getByID demoPgOne 1 = .ok demoGot ∧
    demoUC7.storage.delete () demoGot.fileURL = (.error .storageRemoveFailed, ()) ∧
    demoUC7.DeleteFile () demoPgOne 1 = (.error .storageRemoveFailed, (), demoPgOne) :=
  ⟨by decide, by decide,
   deleteFile_fail_closed demoUC7 () demoPgOne 1 demoGot .storageRemoveFailed ()
     (by decide) (by decide)⟩

/-- C4: the gateway relay's chunking loop transports the read bytes
verbatim — for every partition of the input into successive reads, the
concatenation in send order of the chunk frames it emits equals the
concatenation of the reads, i.e. the original byte sequence, regardless
of chunk-boundary placement. -/
theorem relay_chunks_concat (reads : List Bytes) :
    sentPayload (sendChunks reads) = reads.flatten := by
  induction reads with
  | nil => rfl
  | cons r rs ih => simp [sendChunks, sentPayload, ih]

/-- C9: for a file name with no path separator, a successful
`LocalStorage.Save` returns the locator `baseURL + "/" + name`, and
`LocalStorage.Get` applied to that locator (recovering the name as its
final path segment) returns exactly the saved bytes. -/
theorem save_get_roundtrip (cfg : LocalStorage) (m : Medium) (name : String)
    (data : Bytes) (locator : String) (m1 : Medium)
    (hname : '/' ∉ name.data)
    (hsave : cfg.Save m name data = (.ok locator, m1)) :
    locator = cfg.baseURL ++ "/" ++ name ∧ cfg.Get m1 locator = .ok data := by
  rw [LocalStorage.Save] at hsave
  cases hb : savePathBlocked name with
  | true => rw [if_pos (by simp [hb])] at hsave; simp at hsave
  | false =>
    rw [if_neg (by simp [hb])] at hsave
    simp only [Prod.mk.injEq, Except.ok.injEq] at hsave
    obtain ⟨hloc, hm1⟩ := hsave
    have hname1 : name ≠ "" := by
      intro h
      rw [savePathBlocked] at hb
      have := of_decide_eq_false hb
      exact this (Or.inl h)
    refine ⟨hloc.symm, ?_⟩
    rw [← hloc, ← hm1]
    simp only [LocalStorage.Get]
    rw [goBase_append _ _ hname1 hname, findBlob_putBlob_self]

theorem save_get_roundtrip_witness :
    ('/' ∉ ("b.txt" : String).data) ∧
    demoCfg.Save [] "b.txt" [5, 6] = (.ok "/files/b.txt", [("b.txt", [5, 6])]) ∧
    ("/files/b.txt" = demoCfg.baseURL ++ "/" ++ "b.txt" ∧
     demoCfg.Get [("b.txt", [5, 6])] "/files/b.txt" = .ok [5, 6]) :=
  ⟨by decide, by decide,
   save_get_roundtrip demoCfg [] "b.txt" [5, 6] "/files/b.txt" [("b.txt", [5, 6])]
     (by decide) (by decide)⟩

/-- C10: `LocalStorage.Save` of a creatable name succeeds even when a
blob under the same name already exists, silently truncating and
replacing the existing contents; a subsequent `Get` of the shared
locator returns the later call's bytes. -/
theorem save_overwrites_existing_blob (cfg : LocalStorage) (m : Medium)
    (name : String) (dataNew dataOld : Bytes)
    (hvalid : savePathBlocked name = false)
    (hold : findBlob m name = some dataOld) :
    cfg.Save m name dataNew = (.ok (cfg.baseURL ++ "/" ++ name), putBlob m name dataNew) ∧
    cfg.Get (putBlob m name dataNew) (cfg.baseURL ++ "/" ++ name) = .ok dataNew := by
  rw [savePathBlocked] at hvalid
  have hprops := of_decide_eq_false hvalid
  push_neg at hprops
  obtain ⟨hname1, _, _, hname4⟩ := hprops
  constructor
  · rw [LocalStorage.Save, if_neg (by simp [savePathBlocked, hvalid])]
  · simp only [LocalStorage.Get]
    rw [goBase_append _ _ hname1 hname4, findBlob_putBlob_self]

theorem save_overwrites_existing_blob_witness :
    savePathBlocked "c.png" = false ∧
    findBlob [("c.png", [9])] "c.png" = some [9] ∧
    (demoCfg.Save [("c.png", [9])] "c.png" [7, 8]
       = (.ok (demoCfg.baseURL ++ "/" ++ "c.png"), putBlob [("c.png", [9])] "c.png" [7, 8]) ∧
     demoCfg.Get (putBlob [("c.png", [9])] "c.png" [7, 8]) (demoCfg.baseURL ++ "/" ++ "c.png")
       = .ok [7, 8]) :=
  ⟨by decide, by decide,
   save_overwrites_existing_blob demoCfg [("c.png", [9])] "c.png" [7, 8] [9]
     (by decide) (by decide)⟩

/-- C8: `LocalStorage.Delete` of a locator whose blob is already absent
returns success and leaves the medium unchanged, and consequently
`MediaUseCase.DeleteFile` on a record whose blob was removed out-of-band
succeeds and removes the metadata record. -/
theorem delete_absent_blob_idempotent (cfg : LocalStorage) (m : Medium)
    (pg : PgState) (id : Int) (file : MediaFile)
    (hget : PostgresMediaFileRepository.GetByID pg id = .ok file)
    (habsent : findBlob m (goBase file.fileURL) = none) :
    cfg.Delete m file.fileURL = (.ok (), m) ∧
    MediaUseCase.DeleteFile (mkUseCase cfg) m pg id
      = (.ok (), m, { pg with rows := pg.rows.filter (fun row => row.id != id) }) := by
  have hdel : cfg.Delete m file.fileURL = (.ok (), m) := by
    simp only [LocalStorage.Delete, habsent]
  refine ⟨hdel, ?_⟩
  simp only [MediaUseCase.DeleteFile, mkUseCase, pgRepo, localFS, hget, hdel,
    PostgresMediaFileRepository.Delete]

theorem delete_absent_blob_idempotent_witness :
    PostgresMediaFileRepository.GetByID demoPgOne 1 = .ok demoGot ∧
    findBlob [] (goBase demoGot.fileURL) = none ∧
    (demoCfg.Delete [] demoGot.fileURL = (.ok (), []) ∧
     MediaUseCase.DeleteFile (mkUseCase demoCfg) [] demoPgOne 1
       = (.ok (), [],
          { demoPgOne with rows := demoPgOne.rows.filter (fun row => row.id != 1) })) :=
  ⟨by decide, by decide,
   delete_absent_blob_idempotent demoCfg [] demoPgOne 1 demoGot (by decide) (by decide)⟩

/-- C1, counterexample: the claim that `GetFile` after a completed
upload returns the same field values "including file_size" is false on
the code — for the 3-byte `a.txt` upload of scenario A the returned
record has `fileSize = 3`, yet `GetFile` by the returned id yields the
record with `fileSize = 0`, because the `media_files` schema and the
repository's INSERT and SELECT all omit `file_size`. -/
theorem upload_get_fileSize_counterexample :
    demoUpload = (.ok demoFile, demoMedium1, demoPg1) ∧
    demoFile.fileType = "document" ∧ demoFile.uploadedBy = 42 ∧
    demoFile.fileSize = 3 ∧
    MediaUseCase.GetFile (mkUseCase demoCfg) demoPg1 demoFile.id = .ok demoGot ∧
    ¬ demoGot.fileSize = demoFile.fileSize := by decide

/-- C1, amended: a completed `UploadFile` returns a record with the
declared `file_type`, `uploaded_by`, and `file_size` equal to the byte
count, and a subsequent `GetFile` by the returned id returns a record
with those same values for every field except `file_size`, which comes
back as 0 because it is not persisted. -/
theorem upload_get_roundtrip_except_fileSize
    (cfg : LocalStorage) (now : GoTime) (fileName fileType : String)
    (uploadedBy : Int) (data : Bytes) (m : Medium) (pg : PgState)
    (file : MediaFile) (m1 : Medium) (pg1 : PgState)
    (hfresh : ∀ row ∈ pg.rows, row.id ≠ pg.nextId)
    (hup : MediaUseCase.UploadFile (mkUseCase cfg) now fileName fileType uploadedBy data m pg
           = (.ok file, m1, pg1)) :
    file.fileType = fileType ∧ file.uploadedBy = uploadedBy ∧
    file.fileSize = (data.length : Int) ∧
    ∃ g, MediaUseCase.GetFile (mkUseCase cfg) pg1 file.id = .ok g ∧
      g.id = file.id ∧ g.fileName = file.fileName ∧ g.fileURL = file.fileURL ∧
      g.uploadedBy = file.uploadedBy ∧ g.uploadedAt = file.uploadedAt ∧
      g.fileType = file.fileType ∧ g.fileSize = 0 := by
  rw [MediaUseCase.UploadFile] at hup
  cases hv : IsValidFileType fileType with
  | false => rw [if_neg (by simp [hv])] at hup; simp at hup
  | true =>
    rw [if_pos (by simp [hv])] at hup
    simp only [mkUseCase, localFS, pgRepo, LocalStorage.Save,
      PostgresMediaFileRepository.Create] at hup
    cases hb : savePathBlocked (now.stamp ++ "_" ++ fileName) with
    | true => rw [if_pos (by simp [hb])] at hup; simp at hup
    | false =>
      rw [if_neg (by simp [hb])] at hup
      simp only [uploadRecord_eq, Prod.mk.injEq, Except.ok.injEq] at hup
      obtain ⟨hfile, hm1, hpg1⟩ := hup
      subst hfile
      subst hpg1
      refine ⟨rfl, rfl, rfl, ?_⟩
      refine ⟨⟨pg.nextId, fileName, cfg.baseURL ++ "/" ++ (now.stamp ++ "_" ++ fileName),
        uploadedBy, now, fileType, 0⟩, ?_, rfl, rfl, rfl, rfl, rfl, rfl, rfl⟩
      simp only [MediaUseCase.GetFile, mkUseCase, pgRepo,
        PostgresMediaFileRepository.GetByID]
      have hfalse : ∀ row ∈ pg.rows, (fun row => row.id == pg.nextId) row = false := by
        intro row hrow
        simp [hfresh row hrow]
      rw [find?_append_of_all_false _ _ _ hfalse]
      simp [List.find?]

theorem upload_get_roundtrip_except_fileSize_witness :
    (∀ row ∈ (⟨[], 1⟩ : PgState).rows, row.id ≠ (⟨[], 1⟩ : PgState).nextId) ∧
    (MediaUseCase.UploadFile (mkUseCase demoCfg) demoTime "a.txt" "document" 42
        [97, 98, 99] [] ⟨[], 1⟩ = (.ok demoFile, demoMedium1, demoPg1)) ∧
    (demoFile.fileType = "document" ∧ demoFile.uploadedBy = 42 ∧
     demoFile.fileSize = (([97, 98, 99] : Bytes).length : Int) ∧
     ∃ g, MediaUseCase.GetFile (mkUseCase demoCfg) demoPg1 demoFile.id = .ok g ∧
       g.id = demoFile.id ∧ g.fileName = demoFile.fileName ∧
       g.fileURL = demoFile.fileURL ∧ g.uploadedBy = demoFile.uploadedBy ∧
       g.uploadedAt = demoFile.uploadedAt ∧ g.fileType = demoFile.fileType ∧
       g.fileSize = 0) :=
  ⟨by simp, by decide,
   upload_get_roundtrip_except_fileSize demoCfg demoTime "a.txt" "document" 42
     [97, 98, 99] [] ⟨[], 1⟩ demoFile demoMedium1 demoPg1 (by simp) (by decide)⟩

/-- A session whose remaining chunk frames would push a within-bound
buffer past the ceiling always aborts with an error. -/
theorem runFrames_oversize (frames : List Frame) :
    ∀ st : SessionState, st.buffer.length ≤ MaxFileSize →
      MaxFileSize < st.buffer.length + totalChunkBytes frames →
      ∃ e, runFrames st frames = .error e := by
  induction frames with
  | nil =>
    intro st h1 h2
    rw [totalChunkBytes] at h2
    omega
  | cons f fs ih =>
    intro st h1 h2
    cases f with
    | metadata md =>
      cases hm : st.meta with
      | some m0 => exact ⟨.duplicateMetadata, by simp [runFrames, recvFrame, hm]⟩
      | none =>
        obtain ⟨e, he⟩ := ih { st with meta := some md } h1
          (by rw [totalChunkBytes] at h2; exact h2)
        exact ⟨e, by simp [runFrames, recvFrame, hm, he]⟩
    | chunk b =>
      cases hm : st.meta with
      | none => exact ⟨.chunkBeforeMetadata, by simp [runFrames, recvFrame, hm]⟩
      | some m0 =>
        by_cases hsz : MaxFileSize < st.buffer.length + b.length
        · exact ⟨.payloadTooLarge, by simp [runFrames, recvFrame, hm, hsz]⟩
        · have h1a : ((⟨some m0, st.buffer ++ b⟩ : SessionState)).buffer.length
              ≤ MaxFileSize := by simp; omega
          have h2a : MaxFileSize
              < ((⟨some m0, st.buffer ++ b⟩ : SessionState)).buffer.length
                + totalChunkBytes fs := by
            rw [totalChunkBytes] at h2; simp; omega
          obtain ⟨e, he⟩ := ih ⟨some m0, st.buffer ++ b⟩ h1a h2a
          exact ⟨e, by simp [runFrames, recvFrame, hm, hsz, he]⟩

/-- C3: once the cumulative byte count across the chunk frames of an
upload session exceeds the configured 10 MiB `MaxFileSize`, the
receiving side fails the session with an error, the lifecycle is never
invoked — no `MediaFile` is created — and both the storage medium and
the `media_files` table are left untouched. -/
theorem session_rejects_oversized_payload (cfg : LocalStorage) (now : GoTime)
    (frames : List Frame) (m : Medium) (pg : PgState)
    (h : MaxFileSize < totalChunkBytes frames) :
    ∃ e, serveUpload cfg now frames m pg = (.error e, m, pg) := by
  obtain ⟨e, he⟩ := runFrames_oversize frames ⟨none, []⟩ (by simp) (by simpa using h)
  exact ⟨e, by simp [serveUpload, runSession, he]⟩

/-- Chunk-byte count of a two-frame metadata-then-chunk session, stated
at the variable level so large concrete chunks never get reduced. -/
theorem totalChunkBytes_pair (md : FileMetadata) (b : Bytes) :
    totalChunkBytes [Frame.metadata md, Frame.chunk b] = b.length + 0 := rfl

theorem session_rejects_oversized_payload_witness :
    MaxFileSize
      < totalChunkBytes [Frame.metadata ⟨"a.txt", "document", 42⟩,
          Frame.chunk (List.replicate (MaxFileSize + 1) 0)] ∧
    ∃ e, serveUpload demoCfg demoTime
        [Frame.metadata ⟨"a.txt", "document", 42⟩,
         Frame.chunk (List.replicate (MaxFileSize + 1) 0)] [] ⟨[], 1⟩
      = (.error e, [], ⟨[], 1⟩) :=
  ⟨by rw [totalChunkBytes_pair, List.length_replicate]; omega,
   session_rejects_oversized_payload demoCfg demoTime _ [] ⟨[], 1⟩
     (by rw [totalChunkBytes_pair, List.length_replicate]; omega)⟩

/-- Once the metadata frame has been received, any further metadata
frame in the remaining input aborts the session. -/
theorem runFrames_second_metadata (frames : List Frame) :
    ∀ (st : SessionState) (m0 : FileMetadata), st.meta = some m0 →
      1 ≤ countMetadata frames → ∃ e, runFrames st frames = .error e := by
  induction frames with
  | nil =>
    intro st m0 hm hc
    rw [countMetadata] at hc
    omega
  | cons f fs ih =>
    intro st m0 hm hc
    cases f with
    | metadata md => exact ⟨.duplicateMetadata, by simp [runFrames, recvFrame, hm]⟩
    | chunk b =>
      by_cases hsz : MaxFileSize < st.buffer.length + b.length
      · exact ⟨.payloadTooLarge, by simp [runFrames, recvFrame, hm, hsz]⟩
      · obtain ⟨e, he⟩ := ih ⟨some m0, st.buffer ++ b⟩ m0 rfl
          (by rw [countMetadata] at hc; exact hc)
        exact ⟨e, by simp [runFrames, recvFrame, hm, hsz, he]⟩

/-- A session carrying two or more metadata frames always aborts. -/
theorem runFrames_two_metadata (frames : List Frame) :
    ∀ st : SessionState, 2 ≤ countMetadata frames →
      ∃ e, runFrames st frames = .error e := by
  induction frames with
  | nil =>
    intro st hc
    rw [countMetadata] at hc
    omega
  | cons f fs ih =>
    intro st hc
    cases f with
    | metadata md =>
      cases hm : st.meta with
      | some m0 => exact ⟨.duplicateMetadata, by simp [runFrames, recvFrame, hm]⟩
      | none =>
        obtain ⟨e, he⟩ := runFrames_second_metadata fs { st with meta := some md } md rfl
          (by rw [countMetadata] at hc; omega)
        exact ⟨e, by simp [runFrames, recvFrame, hm, he]⟩
    | chunk b =>
      cases hm : st.meta with
      | none => exact ⟨.chunkBeforeMetadata, by simp [runFrames, recvFrame, hm]⟩
      | some m0 =>
        by_cases hsz : MaxFileSize < st.buffer.length + b.length
        · exact ⟨.payloadTooLarge, by simp [runFrames, recvFrame, hm, hsz]⟩
        · obtain ⟨e, he⟩ := ih ⟨some m0, st.buffer ++ b⟩
            (by rw [countMetadata] at hc; exact hc)
          exact ⟨e, by simp [runFrames, recvFrame, hm, hsz, he]⟩

/-- C5: the receiving side enforces the frame grammar — a session whose
first frame is a chunk frame, or which carries a second metadata frame,
is rejected with an error, the lifecycle is never invoked — no
`MediaFile` is created — and storage and database are left untouched. -/
theorem session_rejects_bad_frame_grammar (cfg : LocalStorage) (now : GoTime)
    (frames : List Frame) (m : Medium) (pg : PgState)
    (h : (∃ b rest, frames = Frame.chunk b :: rest) ∨ 2 ≤ countMetadata frames) :
    ∃ e, serveUpload cfg now frames m pg = (.error e, m, pg) := by
  have herr : ∃ e, runFrames ⟨none, []⟩ frames = .error e := by
    rcases h with ⟨b, rest, hfr⟩ | hc
    · exact ⟨.chunkBeforeMetadata, by simp [hfr, runFrames, recvFrame]⟩
    · exact runFrames_two_metadata frames ⟨none, []⟩ hc
  obtain ⟨e, he⟩ := herr
  exact ⟨e, by simp [serveUpload, runSession, he]⟩

theorem session_rejects_bad_frame_grammar_witness :
    ((∃ b rest, [Frame.chunk [1]] = Frame.chunk b :: rest) ∨
      2 ≤ countMetadata [Frame.chunk [1]]) ∧
    ∃ e, serveUpload demoCfg demoTime [Frame.chunk [1]] [] ⟨[], 1⟩
      = (.error e, [], ⟨[], 1⟩) :=
  ⟨Or.inl ⟨[1], [], rfl⟩,
   session_rejects_bad_frame_grammar demoCfg demoTime [Frame.chunk [1]] [] ⟨[], 1⟩
     (Or.inl ⟨[1], [], rfl⟩)⟩

end MediaVerif
